import Mathlib

/-!
Verification of the query-translation / document-normalization and CRUD core of
the s3-files-app repository (src/server/db/operations.ts, src/server/db/context.ts,
src/apis/mongodb/server.ts), against its natural-language specification.

The untyped JavaScript value domain flowing through the normalizer is embedded
as a mutually inductive type `JsValue`: JSON scalars, native `Date` values,
native `ObjectId` values (represented by their canonical lowercase hex text),
arrays and string-keyed objects.  JavaScript semantics relevant to the code are
embedded explicitly:

* `typeof v === 'object'` holds for objects, arrays, `Date` and `ObjectId`
  values, and for `null`;
* `for (const key in v)` / `Object.keys(v)` enumerate an object's string keys,
  an array's index strings, and find no enumerable string-keyed own properties
  on a native `Date` (`ObjectId` values never reach the converters' inputs in
  this codebase; they are modelled the same way);
* `JSON.parse`, `new Date(string)` and the storage engine's `find`/`insertOne`
  calls are external collaborators and are passed in as explicit parameters
  (a date parser `String -> Option Int` returning epoch milliseconds or `none`
  for NaN, a parse outcome `Except String JsValue`, and storage functions).

Exceptions are embedded as `Except String` with the JavaScript error message.
-/

namespace S3Files

mutual
/-- The untyped JavaScript/BSON value domain of the normalizer. -/
inductive JsValue where
  | null : JsValue
  | bool (b : Bool) : JsValue
  | num (n : Int) : JsValue
  | str (s : String) : JsValue
  | date (ms : Int) : JsValue
  | oid (hex : String) : JsValue
  | arr (items : JsList) : JsValue
  | obj (fields : JsFields) : JsValue
  deriving DecidableEq

inductive JsList where
  | nil : JsList
  | cons (hd : JsValue) (tl : JsList) : JsList
  deriving DecidableEq

inductive JsFields where
  | nil : JsFields
  | cons (key : String) (val : JsValue) (tl : JsFields) : JsFields
  deriving DecidableEq
end

/-- One character of the regular expression class `[0-9a-fA-F]`. -/
def isHexDigit (c : Char) : Bool :=
  (('0' ≤ c) && (c ≤ '9')) || (('a' ≤ c) && (c ≤ 'f')) || (('A' ≤ c) && (c ≤ 'F'))

/-- The test `/^[0-9a-fA-F]{24}$/.test(s)`. -/
def isHex24 (s : String) : Bool :=
  s.length == 24 && s.data.all isHexDigit

/-- `ObjectId.isValid(s)` for a string argument (bson driver: a 24-hex-char string). -/
def objectIdIsValidString (s : String) : Bool := isHex24 s

/-- ASCII lower-casing of one character, as the hex serializer produces. -/
def charToLower (c : Char) : Char :=
  if 65 ≤ c.toNat && c.toNat ≤ 90 then Char.ofNat (c.toNat + 32) else c

/-- ASCII lower-casing of a string. -/
def strToLower (s : String) : String := ⟨s.data.map charToLower⟩

/-- The native `ObjectId` type of the storage driver: an opaque 12-byte value,
represented here by its canonical (lowercase) 24-hex-char text, which is what
`toString()`/`toHexString()` produce. -/
structure MongoObjectId where
  bytesHex : String
  deriving DecidableEq

/-- `new ObjectId(s)` for a valid 24-hex-char string `s`: the stored bytes
serialize back to the lowercase form of `s`. -/
def mkObjectIdOfHex (s : String) : MongoObjectId := ⟨strToLower s⟩

/-- `ObjectId.prototype.toString()` / `toHexString()`. -/
def MongoObjectId.toHexString (o : MongoObjectId) : String := o.bytesHex

/-- `type DocumentId = string | ObjectId` (operations.ts). -/
inductive DocumentId where
  | strId (s : String)
  | oidId (o : MongoObjectId)
  deriving DecidableEq

/-- `toObjectId` (operations.ts, later revision): a valid 24-hex-char string is
converted with `new ObjectId(id)`, any other string throws
`Invalid ObjectId string: ...`, and a native `ObjectId` passes through. -/
def toObjectId : DocumentId → Except String MongoObjectId
  | .strId s =>
      if objectIdIsValidString s then .ok (mkObjectIdOfHex s)
      else .error ("Invalid ObjectId string: " ++ s)
  | .oidId o => .ok o

/-- First binding of a key in an object, as JavaScript property lookup. -/
def getField : JsFields → String → Option JsValue
  | .nil, _ => none
  | .cons k v rest, k0 => if k == k0 then some v else getField rest k0

/-- Scan of the `for (const key in query)` loop of `convertDates` for the early
return: the first binding `"$date" : s` with `s` a string parsing to a valid
date makes the whole call return that date, discarding the other bindings. -/
def findDateMarker (p : String → Option Int) : JsFields → Option Int
  | .nil => none
  | .cons k v rest =>
      if k == "$date" then
        match v with
        | .str s =>
            match p s with
            | some ms => some ms
            | none => findDateMarker p rest
        | _ => findDateMarker p rest
      else findDateMarker p rest

mutual
/-- `convertDates` (operations.ts, later revision).  `p` embeds
`new Date(string)`, returning epoch milliseconds or `none` when
`isNaN(date.getTime())`.  Non-object values (including strings) return as is;
arrays map; an object rebuilds its bindings unless a `"$date"` binding with a
valid date string makes the call return that date.  A native `Date` satisfies
`typeof query === 'object'` and has no enumerable string-keyed properties, so
the rebuild produces an empty object (`ObjectId` is modelled the same way;
such values never occur in this function's inputs in the codebase). -/
def convertDates (p : String → Option Int) : JsValue → JsValue
  | .null => .null
  | .bool b => .bool b
  | .num n => .num n
  | .str s => .str s
  | .date _ => .obj .nil
  | .oid _ => .obj .nil
  | .arr items => .arr (convertDatesList p items)
  | .obj fields =>
      match findDateMarker p fields with
      | some ms => .date ms
      | none => .obj (convertDatesFields p fields)

/-- `query.map(convertDates)` on an array. -/
def convertDatesList (p : String → Option Int) : JsList → JsList
  | .nil => .nil
  | .cons x xs => .cons (convertDates p x) (convertDatesList p xs)

/-- The binding-by-binding rebuild `newQuery[key] = convertDates(query[key])`
(taken when no binding triggers the early return). -/
def convertDatesFields (p : String → Option Int) : JsFields → JsFields
  | .nil => .nil
  | .cons k v rest => .cons k (convertDates p v) (convertDatesFields p rest)
end

/-- `const idFieldNames = ['_id', 'userId', 'itemId', 'orderId', 'sessionId']`
(operations.ts, later revision of `convertIdFields`). -/
def idFieldNames : List String := ["_id", "userId", "itemId", "orderId", "sessionId"]

/-- The two special cases of the `convertIdFields` loop body for a binding
`key : value`: a listed ID field whose value is a valid 24-hex-char string
becomes `new ObjectId(value)`, and an object value of shape
`{ $oid : h }` with `h` a valid 24-hex-char string becomes `new ObjectId(h)`.
`none` means the loop falls through to `newQuery[key] = convertIdFields(value)`. -/
def convertIdFieldsEntryHit (k : String) (v : JsValue) : Option JsValue :=
  match v with
  | .str s =>
      if idFieldNames.contains k && objectIdIsValidString s
      then some (.oid (mkObjectIdOfHex s).bytesHex)
      else none
  | .obj fs =>
      match getField fs "$oid" with
      | some (.str h) =>
          if objectIdIsValidString h then some (.oid (mkObjectIdOfHex h).bytesHex) else none
      | _ => none
  | _ => none

mutual
/-- `convertIdFields` (operations.ts, later revision).  Non-object values
return as is; arrays map; objects rebuild binding by binding through
`convertIdFieldsEntryHit` with recursion in the fall-through case.  A native
`Date` satisfies `typeof query === 'object'` and has no enumerable
string-keyed properties, so rebuilding it produces an empty object
(`ObjectId` is modelled the same way; such values never occur in this
function's inputs in the codebase). -/
def convertIdFields : JsValue → JsValue
  | .null => .null
  | .bool b => .bool b
  | .num n => .num n
  | .str s => .str s
  | .date _ => .obj .nil
  | .oid _ => .obj .nil
  | .arr items => .arr (convertIdFieldsList items)
  | .obj fields => .obj (convertIdFieldsFields fields)

/-- `query.map(convertIdFields)` on an array. -/
def convertIdFieldsList : JsList → JsList
  | .nil => .nil
  | .cons x xs => .cons (convertIdFields x) (convertIdFieldsList xs)

/-- The `for (const key in query)` loop of `convertIdFields`. -/
def convertIdFieldsFields : JsFields → JsFields
  | .nil => .nil
  | .cons k v rest =>
      JsFields.cons k
        (match convertIdFieldsEntryHit k v with
         | some w => w
         | none => convertIdFields v)
        (convertIdFieldsFields rest)
end

/-- JavaScript `String.prototype.startsWith`. -/
def jsStartsWith (s pfx : String) : Bool := List.isPrefixOf pfx.data s.data

/-- JavaScript `String.prototype.endsWith`. -/
def jsEndsWith (s sfx : String) : Bool := List.isSuffixOf sfx.data s.data

/-- The full normalization pipeline of `executeQuery`:
`parsedQuery = convertIdFields(convertDates(rawQuery))`. -/
def normalizeQuery (p : String → Option Int) (raw : JsValue) : JsValue :=
  convertIdFields (convertDates p raw)

/-- The defensive re-check of `executeQuery`:
`typeof parsedQuery === 'object' && parsedQuery !== null && !Array.isArray(parsedQuery)`.
Objects, native dates and native identifiers all satisfy `typeof === 'object'`. -/
def isQueryObjectShape : JsValue → Bool
  | .null => false
  | .bool _ => false
  | .num _ => false
  | .str _ => false
  | .arr _ => false
  | .date _ => true
  | .oid _ => true
  | .obj _ => true

/-- `executeQuery` (operations.ts, later revision), over the outcome of
`JSON.parse(query)` (`parseRes`, an exception message on parse failure) and the
storage engine's `collection.find(parsedQuery).toArray()` (`find`, applied to
the filter actually sent, an exception message on engine failure).  The inner
`try` wraps any parse-stage failure as `Invalid query format: ...`; the outer
`catch` rethrows errors whose message starts with `Invalid query format` and
replaces every other error with `Failed to execute query.`. -/
def executeQuery (p : String → Option Int) (parseRes : Except String JsValue)
    (find : JsValue → Except String JsList) : Except String JsList :=
  let inner : Except String JsValue :=
    match parseRes with
    | .error m => .error ("Invalid query format: " ++ m)
    | .ok raw =>
        let parsedQuery := normalizeQuery p raw
        if isQueryObjectShape parsedQuery then .ok parsedQuery
        else .error ("Invalid query format: " ++ "Query must be a valid JSON object.")
  match inner with
  | .error m => .error m
  | .ok parsedQuery =>
      match find parsedQuery with
      | .ok docs => .ok docs
      | .error m =>
          if jsStartsWith m "Invalid query format" then .error m
          else .error "Failed to execute query."

/-- `update && typeof update === 'object'` for the update argument: `null` is
falsy; objects, arrays, native dates and native identifiers are truthy objects;
booleans, numbers and strings are not of type `'object'`. -/
def jsTruthyObject : JsValue → Bool
  | .null => false
  | .bool _ => false
  | .num _ => false
  | .str _ => false
  | .date _ => true
  | .oid _ => true
  | .arr _ => true
  | .obj _ => true

/-- The keys of an object's bindings, in order. -/
def fieldsKeys : JsFields → List String
  | .nil => []
  | .cons k _ rest => k :: fieldsKeys rest

/-- Length of an embedded array. -/
def jsListLength : JsList → Nat
  | .nil => 0
  | .cons _ tl => jsListLength tl + 1

/-- `Object.keys(v)`: an object's string keys; an array's index strings; no
enumerable string-keyed own properties on other `'object'`-typed values. -/
def jsObjectKeys : JsValue → List String
  | .obj fs => fieldsKeys fs
  | .arr items => (List.range (jsListLength items)).map (fun i => toString i)
  | _ => []

/-- The `finalUpdate` computation of `updateDocument` (operations.ts, later
revision): wrap the update in `$set` when it is a truthy object none of whose
keys starts with `'$'`, otherwise pass it through unchanged. -/
def updateDocumentFinalUpdate (update : JsValue) : JsValue :=
  if jsTruthyObject update && (jsObjectKeys update).all (fun k => !(jsStartsWith k "$"))
  then JsValue.obj (.cons "$set" update .nil)
  else update

/-- The spec-level predicate of the update-wrapping rule: some top-level key of
the update document is an operator key (starts with `'$'`). -/
def fieldsHasOperatorKey : JsFields → Bool
  | .nil => false
  | .cons k _ rest => jsStartsWith k "$" || fieldsHasOperatorKey rest

/-- Presence of a key among an object's bindings. -/
def fieldsHasKey : JsFields → String → Bool
  | .nil, _ => false
  | .cons k _ rest, k0 => k == k0 || fieldsHasKey rest k0

/-- The result of `collection.insertOne`: the acknowledgment flag and the
storage-assigned identifier (by its hex text, which is what
`insertedId.toString()` yields). -/
structure InsertOneResult where
  acknowledged : Bool
  insertedIdHex : String

/-- The document `insertDocument` actually sends to `collection.insertOne`:
`const docToInsert = { ...document }`, a shallow copy, with nothing removed. -/
def insertDocumentDocSent (document : JsFields) : JsFields := document

/-- `insertDocument` (operations.ts, later revision), over the storage engine's
`insertOne` call (applied to the document actually sent): returns
`result.insertedId.toString()` when acknowledged, `null` otherwise. -/
def insertDocument (document : JsFields)
    (insertOne : JsFields → InsertOneResult) : Option String :=
  let docToInsert := insertDocumentDocSent document
  let result := insertOne docToInsert
  if result.acknowledged then some result.insertedIdHex else none

/-- `delete obj[key]`: removal of a key's binding from an object. -/
def removeKey : JsFields → String → JsFields
  | .nil, _ => .nil
  | .cons k v rest, k0 => if k == k0 then removeKey rest k0 else .cons k v (removeKey rest k0)

/-- The `cleanDoc` preparation of the insert path of the `modifyDocument` API
handler (apis/mongodb/server.ts): shallow-copy the request document and delete
`_id`, `_delete` and `_deleteAll` before calling `insertDocument`. -/
def modifyDocumentCleanDoc (document : JsFields) : JsFields :=
  removeKey (removeKey (removeKey document "_id") "_delete") "_deleteAll"

/-- The insert path of the `modifyDocument` API handler: `insertDocument`
applied to the cleaned document. -/
def modifyDocumentInsert (document : JsFields)
    (insertOne : JsFields → InsertOneResult) : Option String :=
  insertDocument (modifyDocumentCleanDoc document) insertOne

/-- The state of the `MongoDBContext` singleton (context.ts): the cached
database handle (`currentDb`, `null` until first use) and the current target
name (`currentDbName`, `''` denoting the default target).  The handle type `H`
and the raw connector `connectToDatabaseClient` are abstract. -/
structure CtxState (H : Type) where
  currentDb : Option H
  currentDbName : String

/-- The freshly constructed context: `currentDb = null`, `currentDbName = ''`. -/
def ctxStart {H : Type} : CtxState H := ⟨none, ""⟩

/-- `MongoDBContext.getDb` (context.ts): return the cached handle, or connect
against `currentDbName`, cache and return. -/
def getDbRun {H : Type} (connect : String → H) (s : CtxState H) : H × CtxState H :=
  match s.currentDb with
  | some db => (db, s)
  | none => (connect s.currentDbName, ⟨some (connect s.currentDbName), s.currentDbName⟩)

/-- `MongoDBContext.useDatabase` (context.ts): set
`currentDbName = dbName || ''`, connect and cache.  The raw connector applies
the same default for an omitted name. -/
def useDatabaseRun {H : Type} (connect : String → H) (dbName : Option String)
    (_s : CtxState H) : H × CtxState H :=
  let newName := dbName.getD ""
  let db := connect newName
  (db, ⟨some db, newName⟩)

/-- `MongoDBContext.reset` (context.ts): `this.currentDb = null`, with every
other field untouched. -/
def resetRun {H : Type} (s : CtxState H) : CtxState H :=
  { s with currentDb := none }

/-- A call against the context, for reasoning about call sequences. -/
inductive CtxOp where
  | useDb (dbName : Option String)
  | getDb
  | reset

/-- State transition of one context call. -/
def ctxStep {H : Type} (connect : String → H) (s : CtxState H) : CtxOp → CtxState H
  | .useDb n => (useDatabaseRun connect n s).2
  | .getDb => (getDbRun connect s).2
  | .reset => resetRun s

/-- State after a sequence of context calls. -/
def ctxRun {H : Type} (connect : String → H) (s : CtxState H) : List CtxOp → CtxState H
  | [] => s
  | op :: ops => ctxRun connect (ctxStep connect s op) ops

/-- The spec-level "target name last in effect" of a call sequence, starting
from `cur`: the defaulted argument of the latest `useDatabase`, else `cur`. -/
def lastTargetName (cur : String) : List CtxOp → String
  | [] => cur
  | op :: ops =>
      lastTargetName (match op with | .useDb n => n.getD "" | _ => cur) ops

/-- One ASCII uppercase letter (the characters `toLower` rewrites). -/
def charIsUpperAscii (c : Char) : Bool := 65 ≤ c.toNat && c.toNat ≤ 90

/-- The spec's notion of an ID-like field name: `_id`, a name ending in `Id`,
or the name `id`. -/
def idLikeFieldName (k : String) : Bool := k == "_id" || jsEndsWith k "Id" || k == "id"

/-- The ISO timestamp of the spec's date-marker scenario. -/
def scenarioIso : String := "2023-05-02T00:00:00.000Z"

/-- Epoch milliseconds of `2023-05-02T00:00:00.000Z`. -/
def scenarioMs : Int := 1682985600000

/-- A date parser resolving exactly the scenario's timestamp. -/
def scenarioDateParse : String → Option Int :=
  fun s => if s == scenarioIso then some scenarioMs else none

/-- `JSON.parse` of the scenario query text
`{"createdAt": {"$gte": {"$date": "2023-05-02T00:00:00.000Z"}}}`. -/
def scenarioQueryTree : JsValue :=
  .obj (.cons "createdAt"
    (.obj (.cons "$gte" (.obj (.cons "$date" (.str scenarioIso) .nil)) .nil)) .nil)

/-- The native-date filter the scenario requires:
`createdAt.$gte` holding the native date. -/
def scenarioNativeFilter : JsValue :=
  .obj (.cons "createdAt" (.obj (.cons "$gte" (.date scenarioMs) .nil)) .nil)

/-- The filter the pipeline actually produces for the scenario:
`createdAt.$gte` holding an empty object. -/
def scenarioCorruptedFilter : JsValue :=
  .obj (.cons "createdAt" (.obj (.cons "$gte" (.obj .nil) .nil)) .nil)

/-- An input document carrying an explicit `_id` key, for the insert contract. -/
def insertExampleDoc : JsFields :=
  .cons "_id" (.str "0123456789abcdef01234567") (.cons "name" (.str "Bob") .nil)

/-! ## Theorems -/

/-- **C4**: the claim that `convertDateMarkers` leaves an already-converted
tree unchanged fails on the code: a tree holding one native date and no
remaining `$date` marker is rebuilt with the native date replaced by an empty
object, because a native `Date` passes the `typeof === 'object'` test and the
key loop finds no enumerable properties on it. -/
theorem convertDates_rebuilds_native_date_as_empty_object :
    convertDates (fun _ => none) (JsValue.obj (.cons "a" (.date 0) .nil))
      = JsValue.obj (.cons "a" (.obj .nil) .nil) ∧
    JsValue.obj (.cons "a" (.obj .nil) .nil) ≠ JsValue.obj (.cons "a" (.date 0) .nil) :=
  ⟨rfl, by decide⟩

set_option maxRecDepth 8000 in
/-- **C1**: the claim that the normalization pipeline of `executeQuery` turns
the scenario query text into the native-date filter fails on the code:
`convertDates` alone produces the native-date filter, but `convertIdFields`
then rebuilds the native date as an empty object, so the filter handed to the
storage engine is `createdAt.$gte = {}` rather than the native date, and the
result set is that of the corrupted filter. -/
theorem executeQuery_date_marker_filter_corrupted :
    convertDates scenarioDateParse scenarioQueryTree = scenarioNativeFilter ∧
    normalizeQuery scenarioDateParse scenarioQueryTree = scenarioCorruptedFilter ∧
    scenarioCorruptedFilter ≠ scenarioNativeFilter ∧
    executeQuery scenarioDateParse (Except.ok scenarioQueryTree)
        (fun q => if q = scenarioCorruptedFilter
                  then Except.error "storage saw the corrupted filter"
                  else Except.ok JsList.nil)
      = Except.error "Failed to execute query." :=
  ⟨by decide, by decide, by decide, by rfl⟩

/-- **C5** counterexample: the textual round-trip through `toObjectId` is not
the identity on every accepted 24-hexadecimal-character string: an uppercase
string is accepted but serializes back in lowercase. -/
theorem toObjectId_uppercase_roundtrip_fails :
    (toObjectId (DocumentId.strId "ABCDEF0123456789ABCDEF01")).map MongoObjectId.toHexString
      = Except.ok "abcdef0123456789abcdef01" ∧
    ("abcdef0123456789abcdef01" : String) ≠ "ABCDEF0123456789ABCDEF01" :=
  ⟨rfl, by decide⟩

theorem charToLower_eq_self_of_not_upper (c : Char) (h : charIsUpperAscii c = false) :
    charToLower c = c := by
  unfold charIsUpperAscii at h
  unfold charToLower
  rw [h]
  simp

theorem mapCharToLower_eq_self (l : List Char)
    (h : l.all (fun c => !charIsUpperAscii c) = true) : l.map charToLower = l := by
  induction l with
  | nil => rfl
  | cons c cs ih =>
      rw [List.all_cons, Bool.and_eq_true] at h
      rw [List.map_cons, charToLower_eq_self_of_not_upper c (by simpa using h.1), ih h.2]

theorem strToLower_eq_self (s : String)
    (h : s.data.all (fun c => !charIsUpperAscii c) = true) : strToLower s = s := by
  unfold strToLower
  rw [mapCharToLower_eq_self s.data h]

/-- **C5** (amended): for every 24-hexadecimal-character string containing no
uppercase letter, `toObjectId` accepts the string and serializing the native
identifier back to text yields the string unchanged. -/
theorem toObjectId_lowercase_roundtrip (s : String)
    (hhex : isHex24 s = true)
    (hlow : s.data.all (fun c => !charIsUpperAscii c) = true) :
    (toObjectId (DocumentId.strId s)).map MongoObjectId.toHexString = Except.ok s := by
  have h1 : toObjectId (DocumentId.strId s) = Except.ok (mkObjectIdOfHex s) := by
    simp [toObjectId, objectIdIsValidString, hhex]
  rw [h1]
  simp [mkObjectIdOfHex, MongoObjectId.toHexString, Except.map, strToLower_eq_self s hlow]

/-- Witness for the amended C5 round-trip at a concrete lowercase string. -/
theorem toObjectId_lowercase_roundtrip_witness :
    (toObjectId (DocumentId.strId "0123456789abcdef01234567")).map MongoObjectId.toHexString
      = Except.ok "0123456789abcdef01234567" :=
  toObjectId_lowercase_roundtrip "0123456789abcdef01234567" (by decide) (by decide)

/-- **C6**: `convertIdFields` never rewrites a non-identifier string: a binding
of an ID-like field name (`_id`, a name ending in `Id`, or `id`) to a string
that is not 24 hexadecimal characters is carried over unchanged as a plain
string, wherever it occurs in a document, and the other bindings are processed
independently. -/
theorem convertIdFields_preserves_non_hex_strings (k : String) (s : String)
    (fs : JsFields)
    (_hid : idLikeFieldName k = true)
    (hs : isHex24 s = false) :
    convertIdFields (JsValue.obj (.cons k (.str s) fs))
      = JsValue.obj (.cons k (.str s) (convertIdFieldsFields fs)) ∧
    convertIdFieldsFields (.cons k (.str s) fs)
      = .cons k (.str s) (convertIdFieldsFields fs) := by
  have hfields : convertIdFieldsFields (.cons k (.str s) fs)
      = .cons k (.str s) (convertIdFieldsFields fs) := by
    simp [convertIdFieldsFields, convertIdFieldsEntryHit, objectIdIsValidString, hs,
      convertIdFields]
  exact ⟨by rw [convertIdFields, hfields], hfields⟩

/-- Witness for C6 at the spec's example: a `userId` field holding
`"not-a-valid-id"` is left as that plain string. -/
theorem convertIdFields_preserves_non_hex_strings_witness :
    convertIdFields (JsValue.obj (.cons "userId" (.str "not-a-valid-id") .nil))
      = JsValue.obj (.cons "userId" (.str "not-a-valid-id") .nil) :=
  (convertIdFields_preserves_non_hex_strings "userId" "not-a-valid-id" .nil
    (by decide) (by decide)).1

/-- **C7**: `toObjectId` accepts exactly native identifiers and
24-hexadecimal-character strings: a native identifier passes through, a
24-hex-char string yields the native identifier built from it, and every other
string fails with the `Invalid ObjectId string` error. -/
theorem toObjectId_accepts_exactly_native_and_hex24 :
    (∀ o : MongoObjectId, toObjectId (.oidId o) = .ok o) ∧
    (∀ s : String, isHex24 s = true →
      toObjectId (.strId s) = .ok (mkObjectIdOfHex s)) ∧
    (∀ s : String, isHex24 s = false →
      toObjectId (.strId s) = .error ("Invalid ObjectId string: " ++ s)) := by
  refine ⟨fun o => rfl, fun s h => ?_, fun s h => ?_⟩ <;>
    simp [toObjectId, objectIdIsValidString, h]

/-- Witness for C7: a lowercase 24-hex string is accepted, and the spec's
12-character example string is rejected with the error. -/
theorem toObjectId_accepts_exactly_native_and_hex24_witness :
    toObjectId (.strId "507f1f77bcf86cd799439011")
      = .ok (mkObjectIdOfHex "507f1f77bcf86cd799439011") ∧
    toObjectId (.strId "123456789012")
      = .error "Invalid ObjectId string: 123456789012" :=
  ⟨toObjectId_accepts_exactly_native_and_hex24.2.1 "507f1f77bcf86cd799439011" (by decide),
   toObjectId_accepts_exactly_native_and_hex24.2.2 "123456789012" (by decide)⟩

theorem fieldsKeys_all_no_dollar :
    (fs : JsFields) →
      (fieldsKeys fs).all (fun k => !(jsStartsWith k "$")) = !fieldsHasOperatorKey fs
  | .nil => rfl
  | .cons k _ rest => by
      have ih := fieldsKeys_all_no_dollar rest
      simp [fieldsKeys, fieldsHasOperatorKey, List.all_cons, ih, Bool.not_or]

/-- **C2**: the update sent to storage by `updateDocument` is wrapped in a
`$set` operator exactly when no top-level key of the update document is an
operator key (a key starting with `'$'`); a document that already carries an
operator key is sent unchanged, never double-wrapped. -/
theorem updateDocument_set_wrapping (fs : JsFields) :
    (fieldsHasOperatorKey fs = false →
      updateDocumentFinalUpdate (JsValue.obj fs)
        = JsValue.obj (.cons "$set" (JsValue.obj fs) .nil)) ∧
    (fieldsHasOperatorKey fs = true →
      updateDocumentFinalUpdate (JsValue.obj fs) = JsValue.obj fs) := by
  constructor <;> intro h <;>
    simp [updateDocumentFinalUpdate, jsTruthyObject, jsObjectKeys,
      fieldsKeys_all_no_dollar, h]

/-- Witness for C2 at the spec's examples: a plain document is wrapped in
`$set`, and a document already under `$set` is sent unchanged. -/
theorem updateDocument_set_wrapping_witness :
    updateDocumentFinalUpdate (JsValue.obj (.cons "name" (.str "Alice") .nil))
      = JsValue.obj (.cons "$set" (JsValue.obj (.cons "name" (.str "Alice") .nil)) .nil) ∧
    updateDocumentFinalUpdate
        (JsValue.obj (.cons "$set" (JsValue.obj (.cons "name" (.str "Alice") .nil)) .nil))
      = JsValue.obj (.cons "$set" (JsValue.obj (.cons "name" (.str "Alice") .nil)) .nil) :=
  ⟨(updateDocument_set_wrapping (.cons "name" (.str "Alice") .nil)).1 (by decide),
   (updateDocument_set_wrapping
      (.cons "$set" (JsValue.obj (.cons "name" (.str "Alice") .nil)) .nil)).2 (by decide)⟩

/-- **C3** counterexample: the two failure kinds of `executeQuery` are not
always distinguishable: a storage-engine error whose message happens to start
with `Invalid query format` is rethrown verbatim by the outer catch instead of
being replaced by the generic `Failed to execute query.` error, so it is
indistinguishable from a parse failure. -/
theorem executeQuery_storage_error_masquerades_as_format_error :
    executeQuery (fun _ => none) (Except.ok (JsValue.obj .nil))
        (fun _ => Except.error "Invalid query format: simulated storage failure")
      = Except.error "Invalid query format: simulated storage failure" ∧
    ("Invalid query format: simulated storage failure" : String)
      ≠ "Failed to execute query." ∧
    jsStartsWith "Invalid query format: simulated storage failure" "Invalid query format"
      = true :=
  ⟨rfl, by decide, by decide⟩

/-- **C3** (amended): `executeQuery` fails with an `Invalid query format` error
carrying the underlying reason exactly when parsing fails or the normalized
query is not a non-null, non-array object, and never returns results in that
case; a storage-engine error is surfaced as the generic
`Failed to execute query.` error provided its message does not itself start
with `Invalid query format`, and is passed through verbatim otherwise. -/
theorem executeQuery_error_classification :
    (∀ (p : String → Option Int) (m : String) (find : JsValue → Except String JsList),
      executeQuery p (.error m) find = .error ("Invalid query format: " ++ m)) ∧
    (∀ (p : String → Option Int) (raw : JsValue) (find : JsValue → Except String JsList),
      isQueryObjectShape (normalizeQuery p raw) = false →
      executeQuery p (.ok raw) find
        = .error ("Invalid query format: " ++ "Query must be a valid JSON object.")) ∧
    (∀ (p : String → Option Int) (raw : JsValue) (find : JsValue → Except String JsList)
        (docs : JsList),
      isQueryObjectShape (normalizeQuery p raw) = true →
      find (normalizeQuery p raw) = .ok docs →
      executeQuery p (.ok raw) find = .ok docs) ∧
    (∀ (p : String → Option Int) (raw : JsValue) (find : JsValue → Except String JsList)
        (m : String),
      isQueryObjectShape (normalizeQuery p raw) = true →
      find (normalizeQuery p raw) = .error m →
      jsStartsWith m "Invalid query format" = false →
      executeQuery p (.ok raw) find = .error "Failed to execute query.") ∧
    (∀ (p : String → Option Int) (raw : JsValue) (find : JsValue → Except String JsList)
        (m : String),
      isQueryObjectShape (normalizeQuery p raw) = true →
      find (normalizeQuery p raw) = .error m →
      jsStartsWith m "Invalid query format" = true →
      executeQuery p (.ok raw) find = .error m) := by
  refine ⟨fun p m find => rfl, fun p raw find h => ?_, fun p raw find docs h hf => ?_,
    fun p raw find m h hf hm => ?_, fun p raw find m h hf hm => ?_⟩
  · simp [executeQuery, h]
  · simp [executeQuery, h, hf]
  · simp [executeQuery, h, hf, hm]
  · simp [executeQuery, h, hf, hm]

/-- Witness for the amended C3 classification: a parse failure surfaces with
its reason, and a storage failure surfaces as the generic error. -/
theorem executeQuery_error_classification_witness :
    executeQuery (fun _ => none) (Except.error "Unexpected end of JSON input")
        (fun _ => Except.ok JsList.nil)
      = Except.error "Invalid query format: Unexpected end of JSON input" ∧
    executeQuery (fun _ => none) (Except.ok (JsValue.obj .nil))
        (fun _ => Except.error "engine down")
      = Except.error "Failed to execute query." :=
  ⟨executeQuery_error_classification.1 (fun _ => none) "Unexpected end of JSON input"
     (fun _ => Except.ok JsList.nil),
   executeQuery_error_classification.2.2.2.1 (fun _ => none) (JsValue.obj .nil)
     (fun _ => Except.error "engine down") "engine down" (by decide) rfl (by decide)⟩

/-- **C8** counterexample: `insertDocument` does not strip an `_id` key from
its input: the shallow copy it sends to storage still carries the `_id`
binding of the input document. -/
theorem insertDocument_sends_id_through :
    insertDocumentDocSent insertExampleDoc = insertExampleDoc ∧
    fieldsHasKey (insertDocumentDocSent insertExampleDoc) "_id" = true :=
  ⟨rfl, by decide⟩

theorem removeKey_hasKey_self :
    (fs : JsFields) → (k : String) → fieldsHasKey (removeKey fs k) k = false
  | .nil, _ => rfl
  | .cons k0 v rest, k => by
      have ih := removeKey_hasKey_self rest k
      by_cases h : (k0 == k) = true <;> simp [removeKey, fieldsHasKey, h, ih]

theorem removeKey_hasKey_false :
    (fs : JsFields) → (k k0 : String) → fieldsHasKey fs k = false →
      fieldsHasKey (removeKey fs k0) k = false
  | .nil, _, _, _ => rfl
  | .cons k1 v rest, k, k0, h => by
      rw [fieldsHasKey, Bool.or_eq_false_iff] at h
      have ih := removeKey_hasKey_false rest k k0 h.2
      by_cases h1 : (k1 == k0) = true <;> simp [removeKey, fieldsHasKey, h1, h.1, ih]

/-- **C8** (amended): the `_id` stripping happens in the insert path of the
`modifyDocument` API handler, not in `insertDocument` itself: the handler's
cleaned document carries no `_id` binding, and the insert then returns the
storage-assigned identifier's text exactly when storage acknowledged, and
nothing otherwise. -/
theorem modifyDocument_insert_strips_id (d : JsFields)
    (insertOne : JsFields → InsertOneResult) :
    fieldsHasKey (modifyDocumentCleanDoc d) "_id" = false ∧
    ((insertOne (modifyDocumentCleanDoc d)).acknowledged = true →
      modifyDocumentInsert d insertOne
        = some (insertOne (modifyDocumentCleanDoc d)).insertedIdHex) ∧
    ((insertOne (modifyDocumentCleanDoc d)).acknowledged = false →
      modifyDocumentInsert d insertOne = none) := by
  refine ⟨?_, fun h => ?_, fun h => ?_⟩
  · exact removeKey_hasKey_false _ "_id" "_deleteAll"
      (removeKey_hasKey_false _ "_id" "_delete" (removeKey_hasKey_self d "_id"))
  · simp [modifyDocumentInsert, insertDocument, insertDocumentDocSent, h]
  · simp [modifyDocumentInsert, insertDocument, insertDocumentDocSent, h]

/-- Witness for the amended C8 insert path at a concrete document and storage
outcome. -/
theorem modifyDocument_insert_strips_id_witness :
    fieldsHasKey (modifyDocumentCleanDoc insertExampleDoc) "_id" = false ∧
    modifyDocumentInsert insertExampleDoc (fun _ => ⟨true, "ffffffffffffffffffffffff"⟩)
      = some "ffffffffffffffffffffffff" :=
  ⟨(modifyDocument_insert_strips_id insertExampleDoc
      (fun _ => ⟨true, "ffffffffffffffffffffffff"⟩)).1,
   (modifyDocument_insert_strips_id insertExampleDoc
      (fun _ => ⟨true, "ffffffffffffffffffffffff"⟩)).2.1 rfl⟩

theorem ctxRun_currentDbName {H : Type} (connect : String → H) :
    (ops : List CtxOp) → (s : CtxState H) →
      (ctxRun connect s ops).currentDbName = lastTargetName s.currentDbName ops
  | [], _ => rfl
  | op :: ops, s => by
      cases op with
      | useDb n =>
          have ih := ctxRun_currentDbName connect ops (ctxStep connect s (CtxOp.useDb n))
          rw [ctxRun, ih]
          rfl
      | getDb =>
          have ih := ctxRun_currentDbName connect ops (ctxStep connect s CtxOp.getDb)
          rw [ctxRun, ih]
          cases h : s.currentDb <;> simp [lastTargetName, ctxStep, getDbRun, h]
      | reset =>
          have ih := ctxRun_currentDbName connect ops (ctxStep connect s CtxOp.reset)
          rw [ctxRun, ih]
          rfl

/-- **C9**: `reset()` clears only the cached handle and leaves the current
target name unchanged, and after any sequence of
`useDatabase`/`getDb`/`reset` calls, a `getDb()` following a `reset()`
re-establishes a connection against the target name last in effect (the
default target `''` if none was ever set). -/
theorem reset_keeps_target_and_getDb_reconnects {H : Type} (connect : String → H)
    (ops : List CtxOp) :
    (resetRun (ctxRun connect ctxStart ops)).currentDb = none ∧
    (resetRun (ctxRun connect ctxStart ops)).currentDbName
      = (ctxRun connect ctxStart ops).currentDbName ∧
    (ctxRun connect ctxStart ops).currentDbName = lastTargetName "" ops ∧
    (getDbRun connect (resetRun (ctxRun connect ctxStart ops))).1
      = connect (lastTargetName "" ops) := by
  have hname : (ctxRun connect ctxStart ops).currentDbName = lastTargetName "" ops :=
    ctxRun_currentDbName connect ops ctxStart
  refine ⟨rfl, rfl, hname, ?_⟩
  simp [getDbRun, resetRun, hname]

end S3Files
